import Mathlib

/-!
# Verification of the padloc `Org` trust and access-control engine

Shallow embedding of `src/packages/core/src/org.ts` (the `OrgRole`, `OrgMember`,
`Group`, `Invite` reference and `Org` classes) into Lean 4.

Modelling conventions:
* JS strings used as byte material (member ids, emails, vault ids) are modelled
  by their UTF-8 byte sequences, `List Nat`, so `stringToBytes` is the identity.
  Display names, which are only interpolated into error messages, stay `String`.
* The external cryptographic provider is idealised: an RSA key pair is a `Nat`
  handle shared by the private and the public half; a signature records the
  signing key handle, the signing parameters and the exact message bytes, and
  `providerVerify` succeeds exactly when the handle matches the public key, the
  parameters match and the message bytes are identical.
* `async` methods are sequentialised; a JS `throw` becomes an `Err` value.
  Mutating methods are modelled as state-passing functions; `rotateKeys`
  returns the (possibly unchanged) organization together with the exception it
  propagates, mirroring that a throw leaves the object as mutated so far.
* `Uint8Array` fields that may be `undefined` before first assignment
  (`signature`, `publicKey`, `privateKey`, `invitesKey`) are `Option`s.
-/

namespace Padloc

/-- UTF-8 byte sequences standing for the JS strings / Uint8Arrays involved. -/
abbrev Bytes := List Nat

/-- Role of a member within an organization (`enum OrgRole`). -/
inductive OrgRole where
  | Owner
  | Admin
  | Member
  | Suspended
deriving DecidableEq, Repr

/-- Numeric value of the TS enum member (`Owner = 0, …, Suspended = 3`). -/
def OrgRole.toNat : OrgRole → Nat
  | .Owner => 0
  | .Admin => 1
  | .Member => 2
  | .Suspended => 3

/-- Idealised signature produced by the external cryptographic provider:
the private-key handle it was made with, the signing parameters, and the exact
message bytes. -/
structure Signature where
  key : Nat
  params : Nat
  message : Bytes
deriving DecidableEq, Repr

/-- `getProvider().sign(privateKey, message, params)`. -/
def providerSign (privateKey : Nat) (message : Bytes) (params : Nat) : Signature :=
  ⟨privateKey, params, message⟩

/-- `getProvider().verify(publicKey, signature, message, params)`: true exactly
when the signature was made by the matching private key, with the same
parameters, over the identical message bytes. The public key may be absent
(`undefined`), in which case nothing verifies. -/
def providerVerify (publicKey : Option Nat) (sig : Signature) (message : Bytes)
    (params : Nat) : Bool :=
  decide (publicKey = some sig.key) && decide (sig.params = params) &&
    decide (sig.message = message)

/-- A `{ id: VaultID; readonly: boolean }` vault assignment entry. -/
structure VaultAssignment where
  id : Bytes
  readonly : Bool
deriving DecidableEq, Repr

/-- `class OrgMember` (org.ts lines 59–127). -/
structure OrgMember where
  id : Bytes
  name : String
  email : Bytes
  publicKey : Bytes
  signature : Option Signature
  orgSignature : Option Bytes
  vaults : List VaultAssignment
  role : OrgRole
deriving DecidableEq, Repr

/-- `class Group` (org.ts lines 132–158): `members` is the list of referenced
account ids (`{ id: AccountID }[]`). -/
structure Group where
  name : String
  members : List Bytes
  vaults : List VaultAssignment
deriving DecidableEq, Repr

/-- Modelled from the spec: the `Invite` class lives outside the given sources
("Invite: held by reference, fetch/remove by id; receives lock() propagation").
Only the lock state matters here. -/
structure Invite where
  id : Bytes
  locked : Bool
deriving DecidableEq, Repr

/-- Modelled from the spec: `Invite.lock()` locks the invite, erasing its
decrypted key material ("receives lock() propagation"). -/
def Invite.lock (i : Invite) : Invite :=
  { i with locked := true }

/-- Errors thrown by `Org` methods: `Err(ErrorCode.VERIFICATION_ERROR, msg)`
versus plain thrown strings. -/
inductive Err where
  | verification (message : String)
  | thrown (message : String)
deriving DecidableEq, Repr

/-- `class Org` (org.ts lines 211–608), restricted to the fields the claims
touch. `encryptedData` and `accessors` model the inherited `SharedContainer`
state: the protected payload (here, the plaintext it protects: the private key
and invites key handles) and the set of account ids it is wrapped for. -/
structure Org where
  id : Bytes
  owner : Bytes
  name : String
  publicKey : Option Nat
  privateKey : Option Nat
  invitesKey : Option Nat
  signingParams : Nat
  members : List OrgMember
  groups : List Group
  vaults : List (Bytes × String)
  invites : List Invite
  encryptedData : Option (Nat × Nat)
  accessors : List Bytes
deriving DecidableEq, Repr

/-- `getMember({id})`: first member whose id matches (`Array.prototype.find`). -/
def Org.getMember (o : Org) (accId : Bytes) : Option OrgMember :=
  o.members.find? (fun m => decide (m.id = accId))

/-- `getGroupsForMember({id})`: groups with some member reference of that id. -/
def Org.getGroupsForMember (o : Org) (accId : Bytes) : List Group :=
  o.groups.filter (fun g => g.members.any (fun mid => decide (mid = accId)))

/-- `getGroupsForVault({id})`: groups with some vault assignment of that id. -/
def Org.getGroupsForVault (o : Org) (vaultId : Bytes) : List Group :=
  o.groups.filter (fun g => g.vaults.any (fun v => decide (v.id = vaultId)))

/-- `getMembersForVault({id})`: members that are not suspended and are directly
assigned to the vault. -/
def Org.getMembersForVault (o : Org) (vaultId : Bytes) : List OrgMember :=
  o.members.filter (fun m =>
    decide (m.role ≠ OrgRole.Suspended) && m.vaults.any (fun v => decide (v.id = vaultId)))

/-- First-occurrence de-duplication, keeping insertion order: the observable
content of a JS `Set` built by successive `add`s. `seen` holds the values
already emitted. -/
def dedupFirstAux {α : Type} [DecidableEq α] : List α → List α → List α
  | _, [] => []
  | seen, x :: xs =>
    if x ∈ seen then dedupFirstAux seen xs else x :: dedupFirstAux (x :: seen) xs

def dedupFirst {α : Type} [DecidableEq α] (l : List α) : List α :=
  dedupFirstAux [] l

theorem mem_dedupFirstAux {α : Type} [DecidableEq α] (x : α) :
    ∀ (seen l : List α), x ∈ dedupFirstAux seen l ↔ x ∈ l ∧ x ∉ seen := by
  intro seen l
  induction l generalizing seen with
  | nil => simp [dedupFirstAux]
  | cons y ys ih =>
    simp only [dedupFirstAux]
    by_cases hy : y ∈ seen
    · rw [if_pos hy, ih, List.mem_cons]
      constructor
      · rintro ⟨hx, hns⟩
        exact ⟨Or.inr hx, hns⟩
      · rintro ⟨hx | hx, hns⟩
        · exact absurd (hx ▸ hy) hns
        · exact ⟨hx, hns⟩
    · rw [if_neg hy]
      simp only [List.mem_cons, ih]
      constructor
      · rintro (rfl | ⟨hx, hns⟩)
        · exact ⟨Or.inl rfl, hy⟩
        · refine ⟨Or.inr hx, ?_⟩
          intro hs
          exact hns (Or.inr hs)
      · rintro ⟨rfl | hx, hns⟩
        · exact Or.inl rfl
        · by_cases hxy : x = y
          · exact Or.inl hxy
          · refine Or.inr ⟨hx, ?_⟩
            intro hs
            rcases hs with hs | hs
            · exact hxy hs
            · exact hns hs

theorem mem_dedupFirst {α : Type} [DecidableEq α] (x : α) (l : List α) :
    x ∈ dedupFirst l ↔ x ∈ l := by
  simp [dedupFirst, mem_dedupFirstAux]

theorem nodup_dedupFirstAux {α : Type} [DecidableEq α] :
    ∀ (seen l : List α), (dedupFirstAux seen l).Nodup := by
  intro seen l
  induction l generalizing seen with
  | nil => simp [dedupFirstAux]
  | cons y ys ih =>
    simp only [dedupFirstAux]
    by_cases hy : y ∈ seen
    · rw [if_pos hy]
      exact ih seen
    · rw [if_neg hy, List.nodup_cons]
      refine ⟨?_, ih (y :: seen)⟩
      intro hmem
      exact ((mem_dedupFirstAux y (y :: seen) ys).mp hmem).2 (List.mem_cons_self y seen)

theorem nodup_dedupFirst {α : Type} [DecidableEq α] (l : List α) :
    (dedupFirst l).Nodup :=
  nodup_dedupFirstAux [] l

/-- Index of the first member whose id matches: the `Array.prototype.find`
lookup of `getMember`, tracked by position so that JS reference identity
(distinct array entries are distinct objects) is preserved. -/
def Org.memberIdx (o : Org) (accId : Bytes) : Option Nat :=
  o.members.findIdx? (fun m => decide (m.id = accId))

/-- The sequence of `Set.add` arguments inside `getAccessors(vault)`, as
member indices: first the direct, non-suspended members of the vault (in
member-list order), then for every group assigned to the vault the resolution
`this.getMember(m)!` of each referenced id — which is `none` (JS `undefined`)
for a dangling id, added to the set unfiltered. -/
def Org.accessorRefs (o : Org) (vaultId : Bytes) : List (Option Nat) :=
  ((List.range o.members.length).filter (fun i =>
      match o.members.get? i with
      | some m =>
          decide (m.role ≠ OrgRole.Suspended) && m.vaults.any (fun v => decide (v.id = vaultId))
      | none => false)).map some
    ++ (o.getGroupsForVault vaultId).flatMap (fun g => g.members.map (fun mid => o.memberIdx mid))

/-- `getAccessors(vault)` (org.ts lines 374–384): the spread `[...results]` of
the `Set`, with each entry resolved back to the member record it references —
`none` stands for a JS `undefined` entry left by a dangling group member id. -/
def Org.getAccessors (o : Org) (vaultId : Bytes) : List (Option OrgMember) :=
  (dedupFirst (o.accessorRefs vaultId)).map (fun r => r.bind (fun i => o.members.get? i))

/-- `getVaultsForMember(acc)` (org.ts lines 387–403): throws when no member
record exists, else the de-duplicated union of direct vault ids and the vault
ids of every group containing the member. -/
def Org.getVaultsForMember (o : Org) (accId : Bytes) : Except Err (List Bytes) :=
  match o.getMember accId with
  | none => .error (Err.thrown "A member with this id does not exist!")
  | some member =>
      .ok (dedupFirst (member.vaults.map (fun v => v.id)
        ++ (o.getGroupsForMember member.id).flatMap (fun g => g.vaults.map (fun v => v.id))))

/-- `canRead(vault, account)` (org.ts lines 406–413). -/
def Org.canRead (o : Org) (vaultId accId : Bytes) : Bool :=
  match o.getMember accId with
  | none => false
  | some member =>
      (member.vaults :: (o.getGroupsForMember member.id).map Group.vaults).any
        (fun vs => vs.any (fun v => decide (v.id = vaultId)))

/-- `canWrite(vault, acc)` (org.ts lines 416–426): member exists, is not
suspended, and some direct or group vault assignment matches with
`readonly = false`. -/
def Org.canWrite (o : Org) (vaultId accId : Bytes) : Bool :=
  match o.getMember accId with
  | none => false
  | some member =>
      decide (member.role ≠ OrgRole.Suspended) &&
        (member.vaults :: (o.getGroupsForMember member.id).map Group.vaults).any
          (fun vs => vs.any (fun v => decide (v.id = vaultId) && !v.readonly))

/-- The exact byte concatenation signed and verified for a member
(org.ts lines 530–535 and 553–558): member id bytes, email bytes, the single
role byte (`new Uint8Array([member.role])` wraps modulo 256), raw public-key
bytes. -/
def OrgMember.signedBytes (m : OrgMember) : Bytes :=
  m.id ++ m.email ++ [m.role.toNat % 256] ++ m.publicKey

/-- The member as `sign` leaves it: same fields, fresh signature by the given
private key over the current `signedBytes`. -/
def signWith (privateKey params : Nat) (m : OrgMember) : OrgMember :=
  { m with signature := some (providerSign privateKey m.signedBytes params) }

/-- `sign(member)` (org.ts lines 523–539): throws when the org holds no
decrypted private key, before any provider call; else sets the signature. -/
def Org.sign (o : Org) (m : OrgMember) : Except Err OrgMember :=
  match o.privateKey with
  | none => .error (Err.thrown "Organisation needs to be unlocked first.")
  | some k => .ok (signWith k o.signingParams m)

/-- `verify(member)` applied with an explicit public key and parameters: the
body of org.ts lines 545–565, which reads only `this.publicKey` and
`this.signingParams` from the org. -/
def verifyMemberWith (publicKey : Option Nat) (params : Nat) (m : OrgMember) :
    Except Err Unit :=
  match m.signature with
  | none => .error (Err.verification "No signed public key provided!")
  | some sig =>
      if providerVerify publicKey sig m.signedBytes params then .ok ()
      else .error (Err.verification ("Failed to verify public key of " ++ m.name ++ "!"))

/-- `verify(member)` (org.ts lines 545–565). It never consults the lock state:
only the public key is used. -/
def Org.verify (o : Org) (m : OrgMember) : Except Err Unit :=
  verifyMemberWith o.publicKey o.signingParams m

/-- Sequentialisation of `Promise.all(members.map(obj => this.verify(obj)))`:
succeeds when every member verifies, else the (first) failure. -/
def Org.verifyList (o : Org) : List OrgMember → Except Err Unit
  | [] => .ok ()
  | m :: rest =>
      match o.verify m with
      | .error e => .error e
      | .ok () => o.verifyList rest

/-- `verifyAll(members)` (org.ts lines 570–573). -/
def Org.verifyAll (o : Org) (ms : List OrgMember) : Except Err Unit :=
  o.verifyList ms

/-- `verifyAll()` with the default argument: all members that are not
suspended. -/
def Org.verifyAllDefault (o : Org) : Except Err Unit :=
  o.verifyAll (o.members.filter (fun m => decide (m.role ≠ OrgRole.Suspended)))

/-- Sequentialisation of `Promise.all(this.members.map(each => this.sign(each)))`. -/
def Org.signAll (o : Org) : List OrgMember → Except Err (List OrgMember)
  | [] => .ok []
  | m :: rest =>
      match o.sign m with
      | .error e => .error e
      | .ok m' =>
          match o.signAll rest with
          | .error e => .error e
          | .ok ms => .ok (m' :: ms)

/-- `generateKeys()` (org.ts lines 468–478): fresh invites key, fresh RSA pair
(the same handle for both halves), and `setData` of the protected
`{privateKey, invitesKey}` payload. -/
def Org.generateKeys (o : Org) (freshAes freshRsa : Nat) : Org :=
  { o with
    invitesKey := some freshAes
    privateKey := some freshRsa
    publicKey := some freshRsa
    encryptedData := some (freshRsa, freshAes) }

/-- `rotateKeys(force)` (org.ts lines 483–498), returning the organization as
the call leaves it together with the exception it propagates, if any. When not
forced, `verifyAll()` runs first and a failure aborts before any mutation. -/
def Org.rotateKeys (o : Org) (force : Bool) (freshAes freshRsa : Nat) :
    Org × Option Err :=
  let doRotate : Org × Option Err :=
    let o1 := o.generateKeys freshAes freshRsa
    let o2 := { o1 with
      encryptedData := none
      accessors :=
        (o1.members.filter (fun (m : OrgMember) => decide (m.role = OrgRole.Owner))).map
          (fun (m : OrgMember) => m.id) }
    match o2.signAll o2.members with
    | .error e => (o2, some e)
    | .ok ms => ({ o2 with members := ms }, none)
  if force then doRotate
  else
    match o.verifyAllDefault with
    | .error e => (o, some e)
    | .ok () => doRotate

/-- `lock()` (org.ts lines 513–518): erases `privateKey` and `invitesKey`.
The invite loop's body, `invite => invite.lock`, reads the `lock` method
without invoking it, so the invites are left exactly as they were. -/
def Org.lock (o : Org) : Org :=
  { o with privateKey := none, invitesKey := none }

/-- An organization with every collection empty and no key material, the base
for the concrete instances below. -/
def baseOrg : Org where
  id := []
  owner := []
  name := "org"
  publicKey := none
  privateKey := none
  invitesKey := none
  signingParams := 0
  members := []
  groups := []
  vaults := []
  invites := []
  encryptedData := none
  accessors := []

/-- A member record with the given identity bytes and role, unsigned. -/
def mkMember (accId : Bytes) (name : String) (email pk : Bytes) (role : OrgRole) :
    OrgMember where
  id := accId
  name := name
  email := email
  publicKey := pk
  signature := none
  orgSignature := none
  vaults := []
  role := role

/-! ## Helper lemmas -/

theorem mem_getGroupsForMember (o : Org) (accId : Bytes) (g : Group) :
    g ∈ o.getGroupsForMember accId ↔ g ∈ o.groups ∧ accId ∈ g.members := by
  simp [Org.getGroupsForMember, List.mem_filter, List.any_eq_true]

theorem mem_getGroupsForVault (o : Org) (vaultId : Bytes) (g : Group) :
    g ∈ o.getGroupsForVault vaultId ↔ g ∈ o.groups ∧ ∃ v ∈ g.vaults, v.id = vaultId := by
  simp [Org.getGroupsForVault, List.mem_filter, List.any_eq_true]

/-- `Array.prototype.find` as index lookup followed by dereference. -/
theorem find?_eq_findIdx?_bind {α : Type} (p : α → Bool) (l : List α) :
    l.find? p = (l.findIdx? p).bind l.get? := by
  induction l with
  | nil => rfl
  | cons x xs ih =>
    rw [List.find?_cons, List.findIdx?_cons]
    by_cases h : p x
    · simp [h]
    · have h' : p x = false := by simpa using h
      rw [if_neg (by simp [h']), List.findIdx?_succ, ih]
      cases hfi : xs.findIdx? p with
      | none => simp [h']
      | some i => simp [h']

/-- A found member is the entry at the index `memberIdx` reports. -/
theorem getMember_eq_memberIdx_get (o : Org) (accId : Bytes) (m : OrgMember)
    (h : o.getMember accId = some m) :
    ∃ i, o.memberIdx accId = some i ∧ o.members.get? i = some m := by
  rw [Org.getMember, find?_eq_findIdx?_bind] at h
  exact Option.bind_eq_some.mp h

/-- Signing rewrites only the signature: the signed byte string is unchanged. -/
theorem signedBytes_signWith (k params : Nat) (m : OrgMember) :
    (signWith k params m).signedBytes = m.signedBytes := rfl

/-- If some listed member fails verification, the whole `verifyAll` run fails
(with the first failure in list order). -/
theorem verifyList_error_of_mem (o : Org) (m : OrgMember) (ms : List OrgMember)
    (hmem : m ∈ ms) (hfail : ∃ e, o.verify m = .error e) :
    ∃ e, o.verifyList ms = .error e := by
  induction ms with
  | nil => cases hmem
  | cons x xs ih =>
    cases hx : o.verify x with
    | error e => exact ⟨e, by rw [Org.verifyList, hx]⟩
    | ok u =>
      cases u
      rcases List.mem_cons.mp hmem with rfl | hmem'
      · rcases hfail with ⟨e, he⟩
        rw [he] at hx
        cases hx
      · rcases ih hmem' with ⟨e, he⟩
        exact ⟨e, by rw [Org.verifyList, hx, he]⟩

/-- With the private key present, `signAll` cannot fail and re-signs each
member in place. -/
theorem signAll_ok (o : Org) (k : Nat) (hk : o.privateKey = some k)
    (ms : List OrgMember) :
    o.signAll ms = .ok (ms.map (signWith k o.signingParams)) := by
  induction ms with
  | nil => rfl
  | cons x xs ih => rw [Org.signAll, Org.sign, hk, ih, List.map_cons]

/-- The organization `rotateKeys(false)` produces once the pre-check passed:
fresh keys, discarded payload, accessors restricted to owners, every member
re-signed under the new private key. -/
theorem rotateKeys_ok_eq (o : Org) (freshAes freshRsa : Nat)
    (hok : o.verifyAllDefault = .ok ()) :
    o.rotateKeys false freshAes freshRsa =
      ({ o with
          invitesKey := some freshAes
          privateKey := some freshRsa
          publicKey := some freshRsa
          encryptedData := none
          accessors :=
            (o.members.filter (fun (m : OrgMember) => decide (m.role = OrgRole.Owner))).map
              (fun (m : OrgMember) => m.id)
          members := o.members.map (signWith freshRsa o.signingParams) }, none) := by
  rw [Org.rotateKeys]
  simp only [Bool.false_eq_true, if_false, hok]
  rw [signAll_ok _ freshRsa rfl]
  simp [Org.generateKeys]

/-! ## Claim theorems -/

/-- C1: `rotateKeys(force=false)` first verifies every non-suspended member
under the current public key; if verification of any of them fails, the whole
operation aborts with that `verifyAll` error and the organization — in
particular `publicKey`, `privateKey` and `invitesKey` — is left unchanged (no
partial key commit). -/
theorem rotateKeys_aborts_on_failed_precheck
    (o : Org) (freshAes freshRsa : Nat) (m : OrgMember)
    (hmem : m ∈ o.members) (hrole : m.role ≠ OrgRole.Suspended)
    (hfail : ∃ e, o.verify m = .error e) :
    ∃ e, o.verifyAllDefault = .error e ∧
      o.rotateKeys false freshAes freshRsa = (o, some e) ∧
      (o.rotateKeys false freshAes freshRsa).1.publicKey = o.publicKey ∧
      (o.rotateKeys false freshAes freshRsa).1.privateKey = o.privateKey ∧
      (o.rotateKeys false freshAes freshRsa).1.invitesKey = o.invitesKey := by
  have hmf : m ∈ o.members.filter (fun m => decide (m.role ≠ OrgRole.Suspended)) := by
    rw [List.mem_filter]
    exact ⟨hmem, by simpa using hrole⟩
  obtain ⟨e, he⟩ := verifyList_error_of_mem o m _ hmf hfail
  have hd : o.verifyAllDefault = .error e := he
  have hrot : o.rotateKeys false freshAes freshRsa = (o, some e) := by
    rw [Org.rotateKeys]
    simp only [Bool.false_eq_true, if_false, hd]
  exact ⟨e, hd, hrot, by rw [hrot], by rw [hrot], by rw [hrot]⟩

def orgC1 : Org :=
  { baseOrg with publicKey := some 0, members := [mkMember [1] "alice" [2] [3] OrgRole.Member] }

/-- C1 witness: a concrete organization whose single (non-suspended) member
carries no signature fails the pre-check and aborts the rotation. -/
theorem rotateKeys_aborts_on_failed_precheck_witness :
    ∃ e, orgC1.verifyAllDefault = .error e ∧
      orgC1.rotateKeys false 5 7 = (orgC1, some e) ∧
      (orgC1.rotateKeys false 5 7).1.publicKey = orgC1.publicKey ∧
      (orgC1.rotateKeys false 5 7).1.privateKey = orgC1.privateKey ∧
      (orgC1.rotateKeys false 5 7).1.invitesKey = orgC1.invitesKey :=
  rotateKeys_aborts_on_failed_precheck orgC1 5 7
    (mkMember [1] "alice" [2] [3] OrgRole.Member) (by decide) (by decide)
    ⟨Err.verification "No signed public key provided!", rfl⟩

/-- C2: after a successful `rotateKeys()` every member — suspended ones
included — carries a fresh signature computed under the newly generated
private key; each of them verifies against the new public key and fails
against the old one. -/
theorem rotateKeys_resigns_all_under_new_key
    (o : Org) (freshAes freshRsa oldKey : Nat)
    (hpub : o.publicKey = some oldKey)
    (hfresh : freshRsa ≠ oldKey)
    (hok : o.verifyAllDefault = .ok ()) :
    (o.rotateKeys false freshAes freshRsa).2 = none ∧
    (o.rotateKeys false freshAes freshRsa).1.publicKey = some freshRsa ∧
    (o.rotateKeys false freshAes freshRsa).1.members =
      o.members.map (signWith freshRsa o.signingParams) ∧
    ∀ m' ∈ (o.rotateKeys false freshAes freshRsa).1.members,
      m'.signature = some (providerSign freshRsa m'.signedBytes o.signingParams) ∧
      (o.rotateKeys false freshAes freshRsa).1.verify m' = .ok () ∧
      verifyMemberWith (some oldKey) o.signingParams m' =
        .error (Err.verification ("Failed to verify public key of " ++ m'.name ++ "!")) := by
  rw [rotateKeys_ok_eq o freshAes freshRsa hok]
  refine ⟨rfl, rfl, rfl, ?_⟩
  intro m' hm'
  rw [List.mem_map] at hm'
  obtain ⟨m, hm, rfl⟩ := hm'
  refine ⟨rfl, ?_, ?_⟩
  · simp [Org.verify, verifyMemberWith, signWith, providerSign, providerVerify,
      OrgMember.signedBytes]
  · have hd : decide (oldKey = freshRsa) = false :=
      decide_eq_false (fun h => hfresh h.symm)
    simp [verifyMemberWith, signWith, providerSign, providerVerify, hd]

def memC2owner : OrgMember :=
  { mkMember [1] "alice" [2] [3] OrgRole.Owner with
    signature :=
      some (providerSign 0 (mkMember [1] "alice" [2] [3] OrgRole.Owner).signedBytes 0) }

def memC2susp : OrgMember := mkMember [4] "bob" [5] [6] OrgRole.Suspended

def orgC2 : Org :=
  { baseOrg with publicKey := some 0, members := [memC2owner, memC2susp] }

/-- C2 witness: a concrete rotation over one validly signed owner and one
unsigned suspended member succeeds and re-signs both under the new key. -/
theorem rotateKeys_resigns_all_under_new_key_witness :
    (orgC2.rotateKeys false 5 7).2 = none ∧
    (orgC2.rotateKeys false 5 7).1.publicKey = some 7 ∧
    (orgC2.rotateKeys false 5 7).1.members =
      orgC2.members.map (signWith 7 orgC2.signingParams) ∧
    ∀ m' ∈ (orgC2.rotateKeys false 5 7).1.members,
      m'.signature = some (providerSign 7 m'.signedBytes orgC2.signingParams) ∧
      (orgC2.rotateKeys false 5 7).1.verify m' = .ok () ∧
      verifyMemberWith (some 0) orgC2.signingParams m' =
        .error (Err.verification ("Failed to verify public key of " ++ m'.name ++ "!")) :=
  rotateKeys_resigns_all_under_new_key orgC2 5 7 0 rfl (by decide) (by rfl)

/-- C3: on an organization holding the matching key pair, verification
succeeds immediately after signing — both compute the signature over the
identical byte concatenation of id, email, role byte and public-key bytes. -/
theorem verify_succeeds_after_sign
    (o : Org) (m m' : OrgMember) (k : Nat)
    (hpriv : o.privateKey = some k) (hpub : o.publicKey = some k)
    (hsign : o.sign m = .ok m') :
    o.verify m' = .ok () := by
  simp only [Org.sign, hpriv, Except.ok.injEq] at hsign
  subst hsign
  simp [Org.verify, verifyMemberWith, signWith, providerSign, providerVerify, hpub,
    OrgMember.signedBytes]

def orgC3 : Org := { baseOrg with privateKey := some 0, publicKey := some 0 }

def memC3 : OrgMember := mkMember [1] "alice" [2] [3] OrgRole.Member

/-- C3 witness: a concrete sign-then-verify round trip. -/
theorem verify_succeeds_after_sign_witness :
    orgC3.verify (signWith 0 0 memC3) = .ok () :=
  verify_succeeds_after_sign orgC3 memC3 (signWith 0 0 memC3) 0 rfl rfl rfl

/-- C4: `canWrite(vault, account)` is true exactly when a member record with
the account's id exists, its role is not Suspended, and the vault id appears
with `readonly = false` among the member's direct assignments or the
assignments of some group containing the member (an OR across all sources);
in particular it is false for every Suspended member. -/
theorem canWrite_characterization (o : Org) (vaultId accId : Bytes) :
    (o.canWrite vaultId accId = true ↔
      ∃ m, o.getMember accId = some m ∧ m.role ≠ OrgRole.Suspended ∧
        ((∃ v ∈ m.vaults, v.id = vaultId ∧ v.readonly = false) ∨
          ∃ g ∈ o.groups, m.id ∈ g.members ∧
            ∃ v ∈ g.vaults, v.id = vaultId ∧ v.readonly = false)) ∧
    (∀ m, o.getMember accId = some m → m.role = OrgRole.Suspended →
      o.canWrite vaultId accId = false) := by
  constructor
  · unfold Org.canWrite
    cases h : o.getMember accId with
    | none => simp
    | some member =>
      simp [mem_getGroupsForMember, List.any_eq_true, and_assoc]
      intro _
      constructor
      · rintro (h1 | ⟨vs, ⟨g, hg, hgm, rfl⟩, hv⟩)
        · exact Or.inl h1
        · exact Or.inr ⟨g, hg, hgm, hv⟩
      · rintro (h1 | ⟨g, hg, hgm, hv⟩)
        · exact Or.inl h1
        · exact Or.inr ⟨g.vaults, ⟨g, hg, hgm, rfl⟩, hv⟩
  · intro m hm hrole
    unfold Org.canWrite
    rw [hm]
    simp [hrole]

/-- C5: `getVaultsForMember` returns, for an existing member, exactly the
duplicate-free union of the member's direct vault ids and the vault ids of
every group containing the member; for a missing member record it fails with
the "member not found" error. The function reads the organization without
mutating it. -/
theorem getVaultsForMember_characterization (o : Org) (accId : Bytes) :
    (∀ m, o.getMember accId = some m →
      ∃ l, o.getVaultsForMember accId = .ok l ∧ l.Nodup ∧
        ∀ vid, vid ∈ l ↔ ((∃ v ∈ m.vaults, v.id = vid) ∨
          ∃ g ∈ o.groups, m.id ∈ g.members ∧ ∃ v ∈ g.vaults, v.id = vid)) ∧
    (o.getMember accId = none →
      o.getVaultsForMember accId =
        .error (Err.thrown "A member with this id does not exist!")) := by
  constructor
  · intro m hm
    unfold Org.getVaultsForMember
    rw [hm]
    refine ⟨_, rfl, nodup_dedupFirst _, ?_⟩
    intro vid
    rw [mem_dedupFirst]
    simp [mem_getGroupsForMember, and_assoc]
  · intro h
    unfold Org.getVaultsForMember
    rw [h]

def orgC6 : Org :=
  { baseOrg with
    publicKey := some 0
    groups := [{ name := "g", members := [[120]], vaults := [⟨[118], false⟩] }]
    vaults := [([118], "v")] }

/-- C6 (code bug evaluation): on a vault whose only accessing group references
a member id with no matching record, `getAccessors` returns a list containing
an `undefined` entry (`none`): the loop adds `this.getMember(m)!` to the set
without the filtering `getMembersForGroup` performs. -/
theorem getAccessors_keeps_dangling_undefined :
    orgC6.getAccessors [118] = [none] := by decide

def orgC7 : Org :=
  { baseOrg with privateKey := some 3, invitesKey := some 4, invites := [⟨[9], false⟩] }

/-- C7 (code bug evaluation): `lock()` erases `privateKey` and `invitesKey`,
but the held invite stays unlocked — the forEach body reads `invite.lock`
without invoking it — although `Invite.lock` itself would have locked it. -/
theorem lock_erases_keys_but_not_invites :
    orgC7.lock.privateKey = none ∧ orgC7.lock.invitesKey = none ∧
    orgC7.lock.invites = [⟨[9], false⟩] ∧
    Invite.lock ⟨[9], false⟩ = ⟨[9], true⟩ := by decide

def memC8 : OrgMember :=
  { mkMember [1] "alice" [2] [3] OrgRole.Member with
    signature :=
      some (providerSign 0 (mkMember [1] "alice" [2] [3] OrgRole.Member).signedBytes 0) }

def orgC8 : Org := { baseOrg with publicKey := some 0, members := [memC8] }

/-- C8 counterexample: on a locked organization (no decrypted private key),
`verify` does not fail at all — it succeeds on a validly signed member,
because it never consults the lock state, only the public key. -/
theorem verify_succeeds_on_locked_org :
    orgC8.privateKey = none ∧ orgC8.verify memC8 = .ok () := ⟨rfl, rfl⟩

/-- C8 amended: `sign` on a locked organization fails fast with the unlock
error before any provider call; `verify` does not require unlock — it fails
with a VERIFICATION_ERROR when the signature is absent, and with a
VERIFICATION_ERROR carrying the member's display name when the provider
rejects the recomputed byte concatenation. -/
theorem sign_locked_fails_and_verify_error_semantics :
    (∀ (o : Org) (m : OrgMember), o.privateKey = none →
      o.sign m = .error (Err.thrown "Organisation needs to be unlocked first.")) ∧
    (∀ (o : Org) (m : OrgMember), m.signature = none →
      o.verify m = .error (Err.verification "No signed public key provided!")) ∧
    (∀ (o : Org) (m : OrgMember) (sig : Signature), m.signature = some sig →
      providerVerify o.publicKey sig m.signedBytes o.signingParams = false →
      o.verify m = .error
        (Err.verification ("Failed to verify public key of " ++ m.name ++ "!"))) := by
  refine ⟨?_, ?_, ?_⟩
  · intro o m h
    simp [Org.sign, h]
  · intro o m h
    simp [Org.verify, verifyMemberWith, h]
  · intro o m sig h hv
    simp [Org.verify, verifyMemberWith, h, hv]

def memC9 : OrgMember := mkMember [97, 98] "mallory" [99] [5] OrgRole.Member

def orgC9 : Org := { baseOrg with publicKey := some 0, privateKey := some 0 }

def memC9signed : OrgMember := signWith 0 0 memC9

def memC9mut : OrgMember := { memC9signed with id := [97], email := [98, 99] }

/-- C9 counterexample: mutating both id and email of a signed member by moving
a byte across the id/email boundary leaves the signed byte concatenation
unchanged, so `verify` still succeeds without re-signing, although the
(id, email, role, publicKey) tuple is different. -/
theorem verify_accepts_boundary_shifted_mutation :
    memC9mut.id ≠ memC9signed.id ∧ memC9mut.email ≠ memC9signed.email ∧
    memC9mut.signature = memC9signed.signature ∧
    orgC9.sign memC9 = .ok memC9signed ∧
    orgC9.verify memC9mut = .ok () :=
  ⟨by decide, by decide, rfl, rfl, rfl⟩

/-- C9 amended: any mutation of id, email, role or publicKey that changes the
signed byte concatenation makes `verify` fail with a VERIFICATION_ERROR
carrying the member's name; distinct field tuples can evade this only by
shifting bytes across the id/email boundary of the concatenation, as the
counterexample does. -/
theorem verify_rejects_mutation_changing_signed_bytes
    (o : Org) (m m2 : OrgMember) (k : Nat)
    (hpub : o.publicKey = some k)
    (hsig : m2.signature = some (providerSign k m.signedBytes o.signingParams))
    (hne : m2.signedBytes ≠ m.signedBytes) :
    o.verify m2 = .error
      (Err.verification ("Failed to verify public key of " ++ m2.name ++ "!")) := by
  have hd : decide (m.signedBytes = m2.signedBytes) = false :=
    decide_eq_false (fun h => hne h.symm)
  simp [Org.verify, verifyMemberWith, hsig, providerVerify, providerSign, hd]

def memC9rolemut : OrgMember := { memC9signed with role := OrgRole.Admin }

/-- C9 witness: changing the signed member's role (only) alters the byte
concatenation and verification fails with the member's name in the error. -/
theorem verify_rejects_mutation_changing_signed_bytes_witness :
    orgC9.verify memC9rolemut = .error
      (Err.verification ("Failed to verify public key of " ++ memC9rolemut.name ++ "!")) :=
  verify_rejects_mutation_changing_signed_bytes orgC9 memC9 memC9rolemut 0
    rfl rfl (by decide)

/-- C10: a Suspended member referenced by a group assigned to the vault IS
included in `getAccessors` — the Suspended exclusion applies only to the
direct assignments collected by `getMembersForVault`, never to membership
reached through a group. -/
theorem getAccessors_includes_suspended_via_group
    (o : Org) (vaultId mid : Bytes) (g : Group) (m : OrgMember)
    (hg : g ∈ o.groups) (hv : ∃ v ∈ g.vaults, v.id = vaultId)
    (hmid : mid ∈ g.members)
    (hm : o.getMember mid = some m)
    (hrole : m.role = OrgRole.Suspended) :
    some m ∈ o.getAccessors vaultId := by
  obtain ⟨i, hidx, hget⟩ := getMember_eq_memberIdx_get o mid m hm
  have hraw : some i ∈ o.accessorRefs vaultId := by
    rw [Org.accessorRefs]
    refine List.mem_append_right _ ?_
    rw [List.mem_flatMap]
    refine ⟨g, ?_, ?_⟩
    · rw [mem_getGroupsForVault]
      exact ⟨hg, hv⟩
    · rw [List.mem_map]
      exact ⟨mid, hmid, hidx⟩
  rw [Org.getAccessors, List.mem_map]
  exact ⟨some i, (mem_dedupFirst _ _).mpr hraw, hget⟩

def memC10 : OrgMember := mkMember [7] "sue" [8] [9] OrgRole.Suspended

def orgC10 : Org :=
  { baseOrg with
    members := [memC10]
    groups := [{ name := "g", members := [[7]], vaults := [⟨[118], false⟩] }] }

/-- C10 witness: a concrete suspended member reached only through a group is
among the vault's accessors. -/
theorem getAccessors_includes_suspended_via_group_witness :
    some memC10 ∈ orgC10.getAccessors [118] :=
  getAccessors_includes_suspended_via_group orgC10 [118] [7]
    { name := "g", members := [[7]], vaults := [⟨[118], false⟩] } memC10
    (by decide) (by decide) (by decide) rfl rfl

end Padloc
